import Mathlib

/-!
# Verification of the multi-cover position controller

A shallow embedding of `cover-control-arduino.ino`: the sketch drives three
motorized covers (a window at index 0 and two curtains at indices 1 and 2)
from UDP text commands and a debounced pair of manual-override inputs.

Modelling choices:
* UDP packets are byte sequences (`List Nat`); the pending queue of one loop
  iteration is a `List` of packets, drained in arrival order.
* Digital reads of the two manual-override pins are samples
  (`RawSample`); one call to `getOpMode`/`getOpModeStable` consumes a prefix
  of a sample list, one sample per 200 ms poll.
* A pulse on an opto-isolated output line is recorded as the pin number that
  was driven high and low again; `setPosition` returns the list of pulses it
  emitted (empty or a single pin).
* `delay` calls only fix real-time pacing and are dropped; the order of reads
  and writes is kept.
-/

set_option autoImplicit false

namespace CoverControl

/-- `enum OperationMode { automatic, manual_down, manual_up }` -/
inductive OperationMode where
  | automatic
  | manual_down
  | manual_up
deriving DecidableEq, Repr

/-- `enum Position { unknown, up, down }` -/
inductive Position where
  | unknown
  | up
  | down
deriving DecidableEq, Repr

/-- `const int OPTO_DOWN[] = {2, 5, 8};` — output pin of the "down" line per cover. -/
def OPTO_DOWN : Fin 3 → Nat
  | 0 => 2
  | 1 => 5
  | 2 => 8

/-- `const int OPTO_UP[] = {3, 6, 9};` — output pin of the "up" line per cover. -/
def OPTO_UP : Fin 3 → Nat
  | 0 => 3
  | 1 => 6
  | 2 => 9

/-- `#define UDP_TX_PACKET_MAX_SIZE 24` (Arduino `EthernetUdp.h`), the size of
`packetBuffer`. -/
def UDP_TX_PACKET_MAX_SIZE : Nat := 24

/-- The mutable cover state of the sketch: the globals
`Position automaticPosition[3]` and `Position currentPosition[3]`. -/
structure CoverState where
  automaticPosition : Fin 3 → Position
  currentPosition : Fin 3 → Position

/-- Startup state: both arrays are initialized to `{unknown, unknown, unknown}`. -/
def initState : CoverState :=
  { automaticPosition := fun _ => Position.unknown
    currentPosition := fun _ => Position.unknown }

/-- ASCII byte sequence of a command literal. -/
def bytes (s : String) : List Nat := s.data.map Char.toNat

/-- The NUL-terminated C string that `strcmp` sees in `packetBuffer` after
`udp.read(packetBuffer, UDP_TX_PACKET_MAX_SIZE)`:
the packet is truncated to the buffer size, a terminator is appended only when
`packetSize < UDP_TX_PACKET_MAX_SIZE` (the code then writes
`packetBuffer[packetSize] = 0x00`), and `strcmp` reads bytes up to the first
NUL.  (When the packet fills the whole buffer and carries no NUL, every
command comparison already fails inside the buffer, because each command
string plus its terminator is shorter than the buffer; the 24‑byte
`takeWhile` result below then differs from every command in length.) -/
def cString (packet : List Nat) : List Nat :=
  let buf := packet.take UDP_TX_PACKET_MAX_SIZE ++
    (if packet.length < UDP_TX_PACKET_MAX_SIZE then [0] else [])
  buf.takeWhile (fun b => b ≠ 0)

/-- Body of the drain loop of `updateAutomaticPosition` for one received
packet: the chain of `strcmp` comparisons against the four command literals,
updating `automaticPosition[]`; an unsupported command changes nothing. -/
def processPacket (st : CoverState) (packet : List Nat) : CoverState :=
  if cString packet = bytes "window open" then
    { st with automaticPosition := Function.update st.automaticPosition 0 Position.up }
  else if cString packet = bytes "window close" then
    { st with automaticPosition := Function.update st.automaticPosition 0 Position.down }
  else if cString packet = bytes "curtain open" then
    { st with automaticPosition :=
        Function.update (Function.update st.automaticPosition 1 Position.up) 2 Position.up }
  else if cString packet = bytes "curtain close" then
    { st with automaticPosition :=
        Function.update (Function.update st.automaticPosition 1 Position.down) 2 Position.down }
  else
    -- unsupported command
    st

/-- `updateAutomaticPosition()`: drain the pending UDP packets in arrival
order.  `udp.parsePacket()` returning `0` means no (further) message and the
function returns at once, so the pending queue is a list of packets of
positive size and the loop folds `processPacket` over it. -/
def updateAutomaticPosition (st : CoverState) : List (List Nat) → CoverState
  | [] => st
  | packet :: rest =>
      if packet.length = 0 then st
      else updateAutomaticPosition (processPacket st packet) rest

/-- `getTargetPosition(idx)`: cover 0 always uses `automatic`, covers 1 and 2
use the debounced `curtainOpMode`; the mode then selects the target. -/
def getTargetPosition (st : CoverState) (curtainOpMode : OperationMode) (idx : Fin 3) :
    Position :=
  let opMode := if idx = 0 then OperationMode.automatic else curtainOpMode
  match opMode with
  | OperationMode.manual_down => Position.down
  | OperationMode.manual_up => Position.up
  | OperationMode.automatic => st.automaticPosition idx

/-- One digital read of the two manual-override input pins. -/
structure RawSample where
  manualUpHigh : Bool
  manualDownHigh : Bool
deriving DecidableEq, Repr

/-- The `switch (((digitalRead(MANUAL_UP) == HIGH) << 1) | (digitalRead(MANUAL_DOWN) == HIGH))`
dispatch of `getOpMode`: case 0 → `automatic`, 1 → `manual_down`,
2 → `manual_up`, 3 (both pressed) → illegal, no mode. -/
def rawOpMode (s : RawSample) : Option OperationMode :=
  match (if s.manualUpHigh then 2 else 0) + (if s.manualDownHigh then 1 else 0) with
  | 0 => some OperationMode.automatic
  | 1 => some OperationMode.manual_down
  | 2 => some OperationMode.manual_up
  | _ => none

/-- `getOpMode()`: read the input pins (one sample per 200 ms poll) until none
or only one pin is HIGH; returns the resolved mode and the unconsumed samples,
or `none` when the sample list is exhausted while both pins stay HIGH (the
real loop would still be polling). -/
def getOpMode : List RawSample → Option (OperationMode × List RawSample)
  | [] => none
  | s :: rest =>
      match rawOpMode s with
      | some m => some (m, rest)
      | none => getOpMode rest

theorem getOpMode_length {samples rest : List RawSample} {m : OperationMode}
    (h : getOpMode samples = some (m, rest)) : rest.length < samples.length := by
  induction samples with
  | nil => simp [getOpMode] at h
  | cons s tail ih =>
      rw [getOpMode] at h
      cases hr : rawOpMode s with
      | some m0 =>
          rw [hr] at h
          cases h
          simp
      | none =>
          rw [hr] at h
          exact Nat.lt_trans (ih h) (by simp)

/-- The `do { delay(200); previousOpMode = opMode; opMode = getOpMode(); }
while (previousOpMode != opMode)` loop of `getOpModeStable`, entered with the
mode of the previous legal sample. -/
def getOpModeStableAux (prev : OperationMode) (samples : List RawSample) :
    Option (OperationMode × List RawSample) :=
  match h : getOpMode samples with
  | none => none
  | some (m, rest) =>
      if m = prev then some (m, rest)
      else getOpModeStableAux m rest
termination_by samples.length
decreasing_by exact getOpMode_length h

/-- `getOpModeStable()`: read input pins until two subsequent legal
measurements are equal. -/
def getOpModeStable (samples : List RawSample) : Option (OperationMode × List RawSample) :=
  match getOpMode samples with
  | none => none
  | some (m, rest) => getOpModeStableAux m rest

/-- `setPosition(idx, target)`: no pulse when the target equals
`currentPosition[idx]` or is `unknown`; otherwise pulse the matching opto pin
(HIGH, 200 ms, LOW) and record `currentPosition[idx] = target`.  Returns the
new state and the list of pulsed pins. -/
def setPosition (st : CoverState) (idx : Fin 3) (target : Position) :
    CoverState × List Nat :=
  if target = st.currentPosition idx then
    -- nothing to do
    (st, [])
  else
    match target with
    | Position.up =>
        ({ st with currentPosition := Function.update st.currentPosition idx target },
         [OPTO_UP idx])
    | Position.down =>
        ({ st with currentPosition := Function.update st.currentPosition idx target },
         [OPTO_DOWN idx])
    | Position.unknown => (st, [])

/-- The actuation pass of `loop()`:
`for (idx = 0..2) setPosition(idx, getTargetPosition(idx));` collecting the
pulses in order. -/
def applyCovers (st : CoverState) (curtainOpMode : OperationMode) :
    CoverState × List Nat :=
  ([0, 1, 2] : List (Fin 3)).foldl
    (fun acc idx =>
      let r := setPosition acc.1 idx (getTargetPosition acc.1 curtainOpMode idx)
      (r.1, acc.2 ++ r.2))
    (st, [])

/-- One iteration of `loop()`: drain the UDP queue, resolve the debounced
curtain mode, then actuate every cover in index order.  `none` models the
iteration never completing because `getOpModeStable` keeps sampling (no
actuation happens then, and no pulse is emitted). -/
def loopIter (st : CoverState) (packets : List (List Nat)) (samples : List RawSample) :
    Option (CoverState × List Nat) :=
  let st1 := updateAutomaticPosition st packets
  match getOpModeStable samples with
  | none => none
  | some (curtainOpMode, _) => some (applyCovers st1 curtainOpMode)

/-- Zero or more completed `loop()` iterations starting from `s`. -/
inductive Steps : CoverState → CoverState → Prop where
  | refl (st : CoverState) : Steps st st
  | tail {s t u : CoverState} {packets : List (List Nat)} {samples : List RawSample}
      {pulses : List Nat} (h : Steps s t)
      (hstep : loopIter t packets samples = some (u, pulses)) : Steps s u

/-- A state the controller can be in after some number of loop iterations
from startup. -/
def Reachable (st : CoverState) : Prop := Steps initState st

/-- The position a packet assigns to cover `idx`, read off the `strcmp`
chain of `updateAutomaticPosition`; `none` when the packet does not address
cover `idx`. -/
def packetTarget (idx : Fin 3) (p : List Nat) : Option Position :=
  if cString p = bytes "window open" then
    if idx = 0 then some Position.up else none
  else if cString p = bytes "window close" then
    if idx = 0 then some Position.down else none
  else if cString p = bytes "curtain open" then
    if idx = 0 then none else some Position.up
  else if cString p = bytes "curtain close" then
    if idx = 0 then none else some Position.down
  else none

/-- The sequence of legal modes carried by a sample list. -/
def rawModes (samples : List RawSample) : List OperationMode :=
  samples.filterMap rawOpMode

/-- `l` contains two consecutive entries that both equal `m`. -/
def hasStablePair (m : OperationMode) (l : List OperationMode) : Prop :=
  ∃ i, l.get? i = some m ∧ l.get? (i + 1) = some m

/-! ### Helper lemmas -/

theorem getOpModeStableAux_eq (prev : OperationMode) (samples : List RawSample) :
    getOpModeStableAux prev samples =
      match getOpMode samples with
      | none => none
      | some (m, rest) =>
          if m = prev then some (m, rest)
          else getOpModeStableAux m rest := by
  rw [getOpModeStableAux]
  cases hg : getOpMode samples <;> rfl

theorem processPacket_auto (st : CoverState) (p : List Nat) (idx : Fin 3) :
    (processPacket st p).automaticPosition idx =
      (packetTarget idx p).getD (st.automaticPosition idx) := by
  fin_cases idx <;> simp [processPacket, packetTarget] <;>
    split_ifs <;> simp [Function.update]

theorem processPacket_current (st : CoverState) (p : List Nat) :
    (processPacket st p).currentPosition = st.currentPosition := by
  simp [processPacket]
  split_ifs <;> rfl

theorem setPosition_auto (st : CoverState) (idx : Fin 3) (target : Position) :
    (setPosition st idx target).1.automaticPosition = st.automaticPosition := by
  rw [setPosition.eq_def]
  split_ifs with h
  · rfl
  · cases target <;> rfl

/-- The six opto output pins are pairwise distinct across covers, so a pulse
on one cover's line never touches another cover's lines. -/
theorem opto_pins_distinct :
    ∀ i j : Fin 3, i ≠ j →
      OPTO_UP i ≠ OPTO_UP j ∧ OPTO_UP i ≠ OPTO_DOWN j ∧
      OPTO_DOWN i ≠ OPTO_DOWN j ∧ OPTO_DOWN i ≠ OPTO_UP j := by
  decide

/-! ### Claim theorems -/

/-- C1: `setPosition` pulses an actuator line of cover `idx` iff the target is
not `unknown` and differs from `currentPosition[idx]`; when it pulses it
records `currentPosition[idx] = target`, and otherwise it leaves the state and
the output lines unchanged.  Consequently, for a cover starting at `unknown`,
the target sequence `[up, up]` pulses the up line exactly once and the second
apply is a no-op. -/
theorem setPosition_pulse_iff :
    ∀ (st : CoverState) (idx : Fin 3) (target : Position),
      ((setPosition st idx target).2 ≠ [] ↔
        target ≠ Position.unknown ∧ target ≠ st.currentPosition idx)
      ∧ (target ≠ Position.unknown → target ≠ st.currentPosition idx →
          (setPosition st idx target).1.currentPosition idx = target)
      ∧ (target = Position.unknown ∨ target = st.currentPosition idx →
          setPosition st idx target = (st, []))
      ∧ (st.currentPosition idx = Position.unknown →
          (setPosition st idx Position.up).2 = [OPTO_UP idx]
          ∧ setPosition (setPosition st idx Position.up).1 idx Position.up
              = ((setPosition st idx Position.up).1, [])) := by
  intro st idx target
  refine ⟨?_, ?_, ?_, ?_⟩
  · rw [setPosition.eq_def]
    split_ifs with h
    · simp [h]
    · cases target <;> simp [h]
  · intro hu hc
    rw [setPosition.eq_def, if_neg (fun he => hc he)]
    cases target with
    | unknown => exact absurd rfl hu
    | up => simp [Function.update]
    | down => simp [Function.update]
  · intro hcase
    rw [setPosition.eq_def]
    rcases hcase with h | h
    · subst h
      split_ifs with h0 <;> rfl
    · rw [if_pos h]
  · intro hunk
    have hne : Position.up ≠ st.currentPosition idx := by rw [hunk]; exact fun h => nomatch h
    constructor
    · rw [setPosition.eq_def, if_neg hne]
    · have hcur : (setPosition st idx Position.up).1.currentPosition idx = Position.up := by
        rw [setPosition.eq_def, if_neg hne]
        simp [Function.update]
      rw [setPosition.eq_def, if_pos hcur.symm]

/-- Witness for C1 at cover 0 starting from the startup state. -/
theorem setPosition_pulse_iff_witness :
    (setPosition initState 0 Position.up).2 = [OPTO_UP 0]
    ∧ setPosition (setPosition initState 0 Position.up).1 0 Position.up
        = ((setPosition initState 0 Position.up).1, []) :=
  (setPosition_pulse_iff initState 0 Position.up).2.2.2 (by decide)

/-- C7: whenever a pulse occurs (target known and different from the current
position), exactly one output line of cover `idx` is driven — the up line for
target `up`, the down line for target `down` — never both and never neither,
and the lines and state of every other cover stay untouched. -/
theorem setPosition_exclusive :
    ∀ (st : CoverState) (idx : Fin 3) (target : Position),
      target ≠ Position.unknown → target ≠ st.currentPosition idx →
      (setPosition st idx target).2.length = 1
      ∧ (target = Position.up → (setPosition st idx target).2 = [OPTO_UP idx])
      ∧ (target = Position.down → (setPosition st idx target).2 = [OPTO_DOWN idx])
      ∧ ∀ j : Fin 3, j ≠ idx →
          (∀ p ∈ (setPosition st idx target).2, p ≠ OPTO_UP j ∧ p ≠ OPTO_DOWN j)
          ∧ (setPosition st idx target).1.currentPosition j = st.currentPosition j := by
  intro st idx target hu hc
  cases target with
  | unknown => exact absurd rfl hu
  | up =>
      rw [setPosition.eq_def, if_neg hc]
      refine ⟨rfl, fun _ => rfl, ?_, ?_⟩
      · intro h
        cases h
      · intro j hj
        refine ⟨?_, ?_⟩
        · intro p hp
          have hpe : p = OPTO_UP idx := by simpa using hp
          subst hpe
          have hd := opto_pins_distinct idx j (fun he => hj he.symm)
          exact ⟨hd.1, hd.2.1⟩
        · simp [Function.update, hj]
  | down =>
      rw [setPosition.eq_def, if_neg hc]
      refine ⟨rfl, ?_, fun _ => rfl, ?_⟩
      · intro h
        cases h
      · intro j hj
        refine ⟨?_, ?_⟩
        · intro p hp
          have hpe : p = OPTO_DOWN idx := by simpa using hp
          subst hpe
          have hd := opto_pins_distinct idx j (fun he => hj he.symm)
          exact ⟨hd.2.2.2, hd.2.2.1⟩
        · simp [Function.update, hj]

/-- Witness for C7 at cover 1 starting from the startup state. -/
theorem setPosition_exclusive_witness :
    (setPosition initState 1 Position.down).2.length = 1 ∧
    (setPosition initState 1 Position.down).2 = [OPTO_DOWN 1] :=
  ⟨(setPosition_exclusive initState 1 Position.down (by decide) (by decide)).1,
   (setPosition_exclusive initState 1 Position.down (by decide) (by decide)).2.2.1 rfl⟩

/-- C2: the computed target of cover 0 is `automaticPosition[0]` for every
mode; for covers 1 and 2 the mode `manual_down` forces `down`, `manual_up`
forces `up`, and `automatic` yields `automaticPosition[idx]`. -/
theorem getTargetPosition_spec :
    ∀ st : CoverState,
      (∀ mode : OperationMode,
        getTargetPosition st mode 0 = st.automaticPosition 0)
      ∧ (∀ idx : Fin 3, idx ≠ 0 →
          getTargetPosition st OperationMode.manual_down idx = Position.down
          ∧ getTargetPosition st OperationMode.manual_up idx = Position.up
          ∧ getTargetPosition st OperationMode.automatic idx = st.automaticPosition idx) := by
  intro st
  constructor
  · intro mode
    cases mode <;> rfl
  · intro idx hidx
    refine ⟨?_, ?_, ?_⟩ <;> simp [getTargetPosition, hidx]

/-- Witness for C2: the manual-forcing-closed mode forces cover 1 down. -/
theorem getTargetPosition_spec_witness :
    getTargetPosition initState OperationMode.manual_down 1 = Position.down :=
  ((getTargetPosition_spec initState).2 1 (by decide)).1

theorem updateAutomaticPosition_singleton (st : CoverState) (p : List Nat)
    (h : p.length ≠ 0) : updateAutomaticPosition st [p] = processPacket st p := by
  simp [updateAutomaticPosition, h]

theorem processPacket_unrecognized (st : CoverState) (p : List Nat)
    (h1 : cString p ≠ bytes "window open") (h2 : cString p ≠ bytes "window close")
    (h3 : cString p ≠ bytes "curtain open") (h4 : cString p ≠ bytes "curtain close") :
    processPacket st p = st := by
  rw [processPacket, if_neg h1, if_neg h2, if_neg h3, if_neg h4]

/-- C3: `"window open"` sets cover 0's automatic target to `up` and no other,
`"window close"` sets it to `down`, `"curtain open"` / `"curtain close"` set
the automatic targets of covers 1 and 2 to `up` / `down` leaving cover 0
untouched, and `"frobnicate"` changes no automatic target. -/
theorem command_mapping :
    ∀ st : CoverState,
      ((updateAutomaticPosition st [bytes "window open"]).automaticPosition 0 = Position.up
        ∧ (updateAutomaticPosition st [bytes "window open"]).automaticPosition 1
            = st.automaticPosition 1
        ∧ (updateAutomaticPosition st [bytes "window open"]).automaticPosition 2
            = st.automaticPosition 2)
      ∧ ((updateAutomaticPosition st [bytes "window close"]).automaticPosition 0 = Position.down
        ∧ (updateAutomaticPosition st [bytes "window close"]).automaticPosition 1
            = st.automaticPosition 1
        ∧ (updateAutomaticPosition st [bytes "window close"]).automaticPosition 2
            = st.automaticPosition 2)
      ∧ ((updateAutomaticPosition st [bytes "curtain open"]).automaticPosition 1 = Position.up
        ∧ (updateAutomaticPosition st [bytes "curtain open"]).automaticPosition 2 = Position.up
        ∧ (updateAutomaticPosition st [bytes "curtain open"]).automaticPosition 0
            = st.automaticPosition 0)
      ∧ ((updateAutomaticPosition st [bytes "curtain close"]).automaticPosition 1 = Position.down
        ∧ (updateAutomaticPosition st [bytes "curtain close"]).automaticPosition 2 = Position.down
        ∧ (updateAutomaticPosition st [bytes "curtain close"]).automaticPosition 0
            = st.automaticPosition 0)
      ∧ updateAutomaticPosition st [bytes "frobnicate"] = st := by
  intro st
  rw [updateAutomaticPosition_singleton st (bytes "window open") (by decide),
    updateAutomaticPosition_singleton st (bytes "window close") (by decide),
    updateAutomaticPosition_singleton st (bytes "curtain open") (by decide),
    updateAutomaticPosition_singleton st (bytes "curtain close") (by decide),
    updateAutomaticPosition_singleton st (bytes "frobnicate") (by decide)]
  repeat rw [processPacket_auto]
  rw [processPacket_unrecognized st (bytes "frobnicate")
    (by decide) (by decide) (by decide) (by decide)]
  refine ⟨⟨?_, ?_, ?_⟩, ⟨?_, ?_, ?_⟩, ⟨?_, ?_, ?_⟩, ⟨?_, ?_, ?_⟩, rfl⟩ <;>
    simp [show packetTarget 0 (bytes "window open") = some Position.up from by decide,
      show packetTarget 1 (bytes "window open") = none from by decide,
      show packetTarget 2 (bytes "window open") = none from by decide,
      show packetTarget 0 (bytes "window close") = some Position.down from by decide,
      show packetTarget 1 (bytes "window close") = none from by decide,
      show packetTarget 2 (bytes "window close") = none from by decide,
      show packetTarget 0 (bytes "curtain open") = none from by decide,
      show packetTarget 1 (bytes "curtain open") = some Position.up from by decide,
      show packetTarget 2 (bytes "curtain open") = some Position.up from by decide,
      show packetTarget 0 (bytes "curtain close") = none from by decide,
      show packetTarget 1 (bytes "curtain close") = some Position.down from by decide,
      show packetTarget 2 (bytes "curtain close") = some Position.down from by decide]

/-- A 24-byte packet whose first bytes are `"window open"` followed by a NUL
and twelve filler bytes `'a'`. -/
def badPacket : List Nat := bytes "window open" ++ 0 :: List.replicate 12 97

/-- Counterexample to C4 as stated: `badPacket` is an oversized payload (its
length reaches `UDP_TX_PACKET_MAX_SIZE`) that differs from all four command
literals, yet ingesting it sets cover 0's automatic target to `up`: the code
never NUL-terminates a buffer-filling packet and `strcmp` stops at the NUL the
payload itself carries at position 11. -/
theorem oversized_packet_recognized :
    UDP_TX_PACKET_MAX_SIZE ≤ badPacket.length
    ∧ badPacket ≠ bytes "window open" ∧ badPacket ≠ bytes "window close"
    ∧ badPacket ≠ bytes "curtain open" ∧ badPacket ≠ bytes "curtain close"
    ∧ initState.automaticPosition 0 = Position.unknown
    ∧ (updateAutomaticPosition initState [badPacket]).automaticPosition 0 = Position.up := by
  decide

/-- C4 (amended): a payload is ignored — every automatic target is left
unchanged and no error is raised — exactly when the C string read from the
packet buffer (the payload truncated to `UDP_TX_PACKET_MAX_SIZE` bytes,
NUL-terminated only when shorter, cut at the first NUL) differs from all four
command literals. -/
theorem unrecognized_payload_ignored :
    ∀ (packets : List (List Nat)) (st : CoverState),
      (∀ p ∈ packets,
        cString p ≠ bytes "window open" ∧ cString p ≠ bytes "window close"
        ∧ cString p ≠ bytes "curtain open" ∧ cString p ≠ bytes "curtain close") →
      updateAutomaticPosition st packets = st := by
  intro packets
  induction packets with
  | nil => intro st _; rfl
  | cons p rest ih =>
      intro st h
      obtain ⟨h1, h2, h3, h4⟩ := h p (List.mem_cons_self p rest)
      by_cases hp : p.length = 0
      · simp [updateAutomaticPosition, hp]
      · simp only [updateAutomaticPosition]
        rw [if_neg hp, processPacket_unrecognized st p h1 h2 h3 h4]
        exact ih st (fun q hq => h q (List.mem_cons_of_mem p hq))

/-- Witness for C4 (amended): a garbage command, an empty payload and an
oversized all-`'a'` payload all leave the startup state unchanged. -/
theorem unrecognized_payload_ignored_witness :
    updateAutomaticPosition initState
      [bytes "frobnicate", [], List.replicate UDP_TX_PACKET_MAX_SIZE 97] = initState :=
  unrecognized_payload_ignored
    [bytes "frobnicate", [], List.replicate UDP_TX_PACKET_MAX_SIZE 97]
    initState (by decide)

/-- C8: draining the pending queue applies recognized commands in arrival
order: after ingestion, cover `idx`'s automatic target equals the target of
the last pending packet addressing `idx` (its previous value when none does).
Pending messages have positive size, `udp.parsePacket() == 0` being the
no-message signal that ends the drain. -/
theorem drain_last_command_wins :
    ∀ (packets : List (List Nat)) (st : CoverState),
      (∀ p ∈ packets, p.length ≠ 0) →
      ∀ idx : Fin 3,
        (updateAutomaticPosition st packets).automaticPosition idx
          = ((packets.filterMap (packetTarget idx)).getLast?).getD
              (st.automaticPosition idx) := by
  intro packets
  induction packets with
  | nil => intro st _ idx; rfl
  | cons p rest ih =>
      intro st h idx
      have hp : p.length ≠ 0 := h p (List.mem_cons_self p rest)
      simp only [updateAutomaticPosition]
      rw [if_neg hp, ih (processPacket st p) (fun q hq => h q (List.mem_cons_of_mem p hq)) idx,
        processPacket_auto, List.filterMap_cons]
      cases ht : packetTarget idx p with
      | none => simp
      | some v =>
          simp only [Option.getD_some]
          cases hf : rest.filterMap (packetTarget idx) with
          | nil => simp [hf]
          | cons w l =>
              rw [List.getLast?_cons_cons,
                List.getLast?_eq_getLast_of_ne_nil (List.cons_ne_nil w l)]
              rfl

/-- Witness for C8: of two curtain commands, the later one wins for cover 1. -/
theorem drain_last_command_wins_witness :
    (updateAutomaticPosition initState
        [bytes "curtain open", bytes "curtain close"]).automaticPosition 1
      = ((([bytes "curtain open", bytes "curtain close"].filterMap
            (packetTarget 1)).getLast?).getD (initState.automaticPosition 1)) :=
  drain_last_command_wins [bytes "curtain open", bytes "curtain close"]
    initState (by decide) 1

theorem getOpMode_rawModes :
    ∀ {samples rest : List RawSample} {m : OperationMode},
      getOpMode samples = some (m, rest) → rawModes samples = m :: rawModes rest := by
  intro samples
  induction samples with
  | nil => intro rest m h; simp [getOpMode] at h
  | cons s tail ih =>
      intro rest m h
      rw [getOpMode] at h
      cases hr : rawOpMode s with
      | some m0 =>
          rw [hr] at h
          cases h
          simp [rawModes, List.filterMap_cons, hr]
      | none =>
          rw [hr] at h
          simp [rawModes, List.filterMap_cons, hr]
          exact ih h

theorem getOpModeStableAux_eq_some (prev m1 : OperationMode)
    (rest1 samples : List RawSample) (hg : getOpMode samples = some (m1, rest1)) :
    getOpModeStableAux prev samples =
      if m1 = prev then some (m1, rest1) else getOpModeStableAux m1 rest1 := by
  rw [getOpModeStableAux_eq, hg]

theorem stableAux_pair :
    ∀ (n : Nat) (samples : List RawSample), samples.length ≤ n →
      ∀ (prev m : OperationMode) (rest : List RawSample),
        getOpModeStableAux prev samples = some (m, rest) →
        hasStablePair m (prev :: rawModes samples) := by
  intro n
  induction n with
  | zero =>
      intro samples hlen prev m rest h
      have hnil : samples = [] := List.length_eq_zero.mp (Nat.le_zero.mp hlen)
      subst hnil
      rw [getOpModeStableAux_eq] at h
      simp [getOpMode] at h
  | succ n ih =>
      intro samples hlen prev m rest h
      cases hg : getOpMode samples with
      | none =>
          rw [getOpModeStableAux_eq, hg] at h
          cases h
      | some pr =>
          obtain ⟨m1, rest1⟩ := pr
          rw [getOpModeStableAux_eq_some prev m1 rest1 samples hg] at h
          have hmodes := getOpMode_rawModes hg
          by_cases hm : m1 = prev
          · rw [if_pos hm] at h
            cases h
            exact ⟨0, by simp [hmodes, hm], by simp [hmodes]⟩
          · rw [if_neg hm] at h
            have hlt := getOpMode_length hg
            obtain ⟨i, h1, h2⟩ := ih rest1 (by omega) m1 m rest h
            refine ⟨i + 1, ?_, ?_⟩
            · rw [List.get?_cons_succ, hmodes]
              exact h1
            · rw [List.get?_cons_succ, hmodes]
              exact h2

/-- C5: the debounced mode resolution accepts a mode `m` only after two
consecutive legal raw samples both carried `m`; while consecutive samples keep
disagreeing, resampling continues (no mode is accepted from the finite sample
list); and on the raw sequence [manual_up, manual_down, manual_up, manual_up]
the accepted mode becomes `manual_up` exactly with the fourth sample — the
second consecutive `manual_up` — all four samples being consumed. -/
theorem debounce_two_consecutive :
    (∀ (samples : List RawSample) (m : OperationMode) (rest : List RawSample),
        getOpModeStable samples = some (m, rest) → hasStablePair m (rawModes samples))
    ∧ (∀ samples : List RawSample,
        (∀ m : OperationMode, ¬ hasStablePair m (rawModes samples)) →
        getOpModeStable samples = none)
    ∧ getOpModeStable
        [⟨true, false⟩, ⟨false, true⟩, ⟨true, false⟩, ⟨true, false⟩]
        = some (OperationMode.manual_up, []) := by
  have hmain : ∀ (samples : List RawSample) (m : OperationMode) (rest : List RawSample),
      getOpModeStable samples = some (m, rest) → hasStablePair m (rawModes samples) := by
    intro samples m rest h
    rw [getOpModeStable] at h
    cases hg : getOpMode samples with
    | none => rw [hg] at h; cases h
    | some pr =>
        obtain ⟨m0, rest0⟩ := pr
        rw [hg] at h
        rw [getOpMode_rawModes hg]
        exact stableAux_pair rest0.length rest0 le_rfl m0 m rest h
  refine ⟨hmain, ?_, ?_⟩
  · intro samples hno
    cases hs : getOpModeStable samples with
    | none => rfl
    | some pr =>
        obtain ⟨m, rest⟩ := pr
        exact absurd (hmain samples m rest hs) (hno m)
  · simp [getOpModeStable, getOpMode, getOpModeStableAux, rawOpMode]

/-- Witness for C5: the accepted pair of `manual_up` samples exists in the
concrete debounce run. -/
theorem debounce_two_consecutive_witness :
    hasStablePair OperationMode.manual_up
      (rawModes [⟨true, false⟩, ⟨false, true⟩, ⟨true, false⟩, ⟨true, false⟩]) :=
  debounce_two_consecutive.1
    [⟨true, false⟩, ⟨false, true⟩, ⟨true, false⟩, ⟨true, false⟩]
    OperationMode.manual_up [] debounce_two_consecutive.2.2

theorem getOpMode_eq_none_iff (samples : List RawSample) :
    getOpMode samples = none ↔ ∀ s ∈ samples, rawOpMode s = none := by
  induction samples with
  | nil => simp [getOpMode]
  | cons s tail ih =>
      rw [getOpMode]
      cases hr : rawOpMode s with
      | some m => simp [hr]
      | none => simp [hr, ih]

/-- C6: the raw read maps both-low to `automatic`, down-only to `manual_down`,
up-only to `manual_up`, and never resolves a both-high sample; over a sample
stream it returns the mode of the first legal sample, terminating iff one
exists — while every sample is both-high it keeps polling, the loop iteration
never completes, and no target update or actuation takes place. -/
theorem raw_mode_resolution :
    (rawOpMode ⟨false, false⟩ = some OperationMode.automatic
      ∧ rawOpMode ⟨false, true⟩ = some OperationMode.manual_down
      ∧ rawOpMode ⟨true, false⟩ = some OperationMode.manual_up
      ∧ rawOpMode ⟨true, true⟩ = none)
    ∧ (∀ (pre : List RawSample) (s : RawSample) (post : List RawSample)
          (m : OperationMode),
        (∀ t ∈ pre, rawOpMode t = none) → rawOpMode s = some m →
        getOpMode (pre ++ s :: post) = some (m, post))
    ∧ (∀ samples : List RawSample,
        (getOpMode samples = none ↔ ∀ s ∈ samples, rawOpMode s = none))
    ∧ (∀ (st : CoverState) (packets : List (List Nat)) (samples : List RawSample),
        (∀ s ∈ samples, rawOpMode s = none) →
        loopIter st packets samples = none) := by
  refine ⟨by decide, ?_, getOpMode_eq_none_iff, ?_⟩
  · intro pre
    induction pre with
    | nil =>
        intro s post m _ hs
        rw [List.nil_append, getOpMode, hs]
    | cons t tail ih =>
        intro s post m hpre hs
        rw [List.cons_append, getOpMode, hpre t (List.mem_cons_self t tail)]
        exact ih s post m (fun q hq => hpre q (List.mem_cons_of_mem t hq)) hs
  · intro st packets samples hall
    have hnone : getOpMode samples = none := (getOpMode_eq_none_iff samples).mpr hall
    simp [loopIter, getOpModeStable, hnone]

/-- Witness for C6: a both-high sample is skipped and the following both-low
sample resolves to `automatic`. -/
theorem raw_mode_resolution_witness :
    getOpMode [⟨true, true⟩, ⟨false, false⟩]
      = some (OperationMode.automatic, []) :=
  raw_mode_resolution.2.1 [⟨true, true⟩] ⟨false, false⟩ []
    OperationMode.automatic (by decide) (by decide)

theorem loopIter_some {st : CoverState} {packets : List (List Nat)}
    {samples : List RawSample} {u : CoverState} {pulses : List Nat}
    (h : loopIter st packets samples = some (u, pulses)) :
    ∃ mode rest, getOpModeStable samples = some (mode, rest)
      ∧ u = (applyCovers (updateAutomaticPosition st packets) mode).1 := by
  unfold loopIter at h
  cases hg : getOpModeStable samples with
  | none => rw [hg] at h; cases h
  | some pr =>
      obtain ⟨mode, rest⟩ := pr
      rw [hg] at h
      refine ⟨mode, rest, rfl, ?_⟩
      have hinj : applyCovers (updateAutomaticPosition st packets) mode = (u, pulses) :=
        Option.some.inj h
      exact (congrArg Prod.fst hinj).symm

theorem applyCovers_auto (st : CoverState) (mode : OperationMode) :
    (applyCovers st mode).1.automaticPosition = st.automaticPosition := by
  simp only [applyCovers, List.foldl]
  rw [setPosition_auto, setPosition_auto, setPosition_auto]

theorem updateAutomaticPosition_current :
    ∀ (packets : List (List Nat)) (st : CoverState),
      (updateAutomaticPosition st packets).currentPosition = st.currentPosition := by
  intro packets
  induction packets with
  | nil => intro st; rfl
  | cons p rest ih =>
      intro st
      rw [updateAutomaticPosition]
      by_cases hp : p.length = 0
      · rw [if_pos hp]
      · rw [if_neg hp, ih, processPacket_current]

theorem packetTarget_curtains_agree (p : List Nat) :
    packetTarget 1 p = packetTarget 2 p := by
  rw [packetTarget, packetTarget]
  have h1 : ((1 : Fin 3) = 0) = False := by simp
  have h2 : ((2 : Fin 3) = 0) = False := by simp
  simp only [h1, h2, if_false]

theorem updateAutomaticPosition_curtains_agree :
    ∀ (packets : List (List Nat)) (st : CoverState),
      st.automaticPosition 1 = st.automaticPosition 2 →
      (updateAutomaticPosition st packets).automaticPosition 1
        = (updateAutomaticPosition st packets).automaticPosition 2 := by
  intro packets
  induction packets with
  | nil => intro st h; exact h
  | cons p rest ih =>
      intro st h
      rw [updateAutomaticPosition]
      by_cases hp : p.length = 0
      · rw [if_pos hp]; exact h
      · rw [if_neg hp]
        refine ih (processPacket st p) ?_
        rw [processPacket_auto, processPacket_auto, packetTarget_curtains_agree]
        cases packetTarget 2 p with
        | none => simpa using h
        | some v => rfl

/-- C9 (implicit invariant): in every reachable state the two curtain covers
share one automatic target, `automaticPosition[1] = automaticPosition[2]`:
both start `unknown`, every curtain command writes both entries together, and
no other operation writes either. -/
theorem curtain_targets_agree :
    ∀ st : CoverState, Reachable st →
      st.automaticPosition 1 = st.automaticPosition 2 := by
  intro st h
  unfold Reachable at h
  induction h with
  | refl => rfl
  | tail hsteps hstep ih =>
      obtain ⟨mode, rest, hg, hu⟩ := loopIter_some hstep
      rw [hu, applyCovers_auto]
      exact updateAutomaticPosition_curtains_agree _ _ ih

/-- Witness for C9 at the startup state. -/
theorem curtain_targets_agree_witness :
    initState.automaticPosition 1 = initState.automaticPosition 2 :=
  curtain_targets_agree initState (Steps.refl initState)

theorem packetTarget_ne_unknown (idx : Fin 3) (p : List Nat) :
    packetTarget idx p ≠ some Position.unknown := by
  rw [packetTarget]
  split_ifs <;> simp

theorem updateAutomaticPosition_known :
    ∀ (packets : List (List Nat)) (st : CoverState) (idx : Fin 3),
      st.automaticPosition idx ≠ Position.unknown →
      (updateAutomaticPosition st packets).automaticPosition idx ≠ Position.unknown := by
  intro packets
  induction packets with
  | nil => intro st idx h; exact h
  | cons p rest ih =>
      intro st idx h
      rw [updateAutomaticPosition]
      by_cases hp : p.length = 0
      · rw [if_pos hp]; exact h
      · rw [if_neg hp]
        refine ih (processPacket st p) idx ?_
        rw [processPacket_auto]
        cases ht : packetTarget idx p with
        | none => exact h
        | some v =>
            intro hv
            exact packetTarget_ne_unknown idx p (hv ▸ ht)

theorem setPosition_current_known (st : CoverState) (idx : Fin 3)
    (target : Position) (j : Fin 3)
    (h : st.currentPosition j ≠ Position.unknown) :
    (setPosition st idx target).1.currentPosition j ≠ Position.unknown := by
  rw [setPosition.eq_def]
  split_ifs with hc
  · exact h
  · cases target with
    | unknown => exact h
    | up =>
        simp only [Function.update]
        split_ifs with hj
        · subst hj; simp
        · exact h
    | down =>
        simp only [Function.update]
        split_ifs with hj
        · subst hj; simp
        · exact h

theorem applyCovers_current_known (st : CoverState) (mode : OperationMode)
    (j : Fin 3) (h : st.currentPosition j ≠ Position.unknown) :
    (applyCovers st mode).1.currentPosition j ≠ Position.unknown := by
  simp only [applyCovers, List.foldl]
  exact setPosition_current_known _ _ _ _
    (setPosition_current_known _ _ _ _ (setPosition_current_known _ _ _ _ h))

/-- C10 (implicit invariant): across any number of loop iterations, a cover's
automatic target and last commanded position never revert from a known value
(`up` or `down`) to `unknown`: commands only assign known positions, and
actuation records a position only when the target is known. -/
theorem known_positions_monotone :
    ∀ (s t : CoverState), Steps s t → ∀ idx : Fin 3,
      (s.automaticPosition idx ≠ Position.unknown →
        t.automaticPosition idx ≠ Position.unknown)
      ∧ (s.currentPosition idx ≠ Position.unknown →
        t.currentPosition idx ≠ Position.unknown) := by
  intro s t h idx
  induction h with
  | refl => exact ⟨id, id⟩
  | tail hsteps hstep ih =>
      obtain ⟨mode, rest, hg, hu⟩ := loopIter_some hstep
      constructor
      · intro hk
        rw [hu, applyCovers_auto]
        exact updateAutomaticPosition_known _ _ idx (ih.1 hk)
      · intro hk
        rw [hu]
        refine applyCovers_current_known _ _ _ ?_
        rw [updateAutomaticPosition_current]
        exact ih.2 hk

/-- Witness for C10: a state whose positions are all known keeps cover 0
known across zero iterations. -/
theorem known_positions_monotone_witness :
    (CoverState.mk (fun _ => Position.up) (fun _ => Position.up)).automaticPosition 0
      ≠ Position.unknown :=
  (known_positions_monotone
    (CoverState.mk (fun _ => Position.up) (fun _ => Position.up))
    (CoverState.mk (fun _ => Position.up) (fun _ => Position.up))
    (Steps.refl _) 0).1 (by decide)

end CoverControl
